import Mathlib

/-!
# Verification of the TMDB catalog-enrichment client

Shallow embedding of `modules/tmdb_client.py`: the retrying transport
(`_make_request`), the search/resolution cascade with its process-lifetime
cache (`search_movie`), title normalization (`_normalize_title`), detail
extraction (`_extract_movie_info`), batch enrichment (`enrich_movies`) and
candidate-pool construction (`build_candidate_pool`).

Conventions of the embedding:
* network transports are oracles (`Nat → List …`, `String → … → List …`);
  a request that would raise inside a `try`-block that returns a default is
  modelled by the oracle returning that default;
* Python `None` becomes `Option.none`; Python truthiness of optional
  integers / strings is modelled explicitly (`truthyNat`, `truthyStr`);
* the `ThreadPoolExecutor`/`as_completed` completion order of a submitted
  batch is modelled by an arbitrary permutation-valued parameter `order`;
* floats (`vote_average`, `min_rating`, fuzzy scores) are modelled as `ℚ`.
-/

namespace TMDBClient

/-! ## RetryingTransport: `_make_request` (tmdb_client.py lines 75-115) -/

/-- One event of the underlying HTTP transport, as observed by a single
`self.session.get` call inside `_make_request`: either a transport-level
failure (`requests.exceptions.Timeout`, or another
`requests.exceptions.RequestException` such as a connection error), or a
completed HTTP response carrying a status code and a body. -/
inductive HttpEvent where
  | timeout
  | connectionError
  | response (status : Nat) (body : String)
deriving DecidableEq

/-- The Python exceptions that can escape one attempt of `_make_request`'s
body.  `requestException` stands for an *uncaught*
`requests.exceptions.RequestException`; the other two are the client's own
typed errors. -/
inductive PyError where
  | tmdbAPIError (msg : String)
  | movieNotFoundError (msg : String)
  | requestException
deriving DecidableEq

/-- One attempt of the body of `_make_request` (lines 94-115): status codes
401 / 404 / 429 / other-non-200 raise typed errors after a response was
received, and the trailing `except`-clauses convert every
`requests.exceptions.RequestException` (timeout, connection error) into a
`TMDBAPIError` before it can leave the function. -/
def make_request_attempt (ev : HttpEvent) : Except PyError String :=
  match ev with
  | .timeout => .error (.tmdbAPIError "TMDB API request timed out.")
  | .connectionError =>
      .error (.tmdbAPIError "Network error while accessing TMDB API")
  | .response status body =>
      if status = 401 then
        .error (.tmdbAPIError "Invalid TMDB API key. Please check your .env file.")
      else if status = 404 then
        .error (.movieNotFoundError "Resource not found")
      else if status = 429 then
        .error (.tmdbAPIError "TMDB API rate limit exceeded. Please wait and try again.")
      else if status ≠ 200 then
        .error (.tmdbAPIError ("TMDB API error: " ++ body))
      else
        .ok body

/-- The retry predicate configured on the decorator:
`retry_if_exception_type(requests.exceptions.RequestException)`. -/
def retryable (e : PyError) : Bool :=
  match e with
  | .requestException => true
  | _ => false

/-- The `tenacity` driver as configured on `_make_request`:
`stop=stop_after_attempt(3)` together with
`retry=retry_if_exception_type(RequestException)` re-runs the wrapped
function while it raises a retryable exception and fewer than 3 attempts
have been made.  Each attempt consumes one transport event; the result is
returned together with the number of attempts actually performed.  (The
`wait_exponential(multiplier=1, min=2, max=10)` sleep between attempts does
not influence the value computed and is not modelled.) -/
def tenacity_run : Nat → List HttpEvent → Except PyError String × Nat
  | _, [] => (.error .requestException, 0)
  | attempt, ev :: rest =>
      match make_request_attempt ev with
      | .ok v => (.ok v, 1)
      | .error e =>
          if retryable e ∧ attempt < 3 then
            let r := tenacity_run (attempt + 1) rest
            (r.1, r.2 + 1)
          else
            (.error e, 1)

/-- `_make_request`, run against a transport that produces the given event
for each successive attempt. -/
def _make_request (events : List HttpEvent) : Except PyError String × Nat :=
  tenacity_run 1 events

/-! ## Title normalization: `_normalize_title` (tmdb_client.py lines 132-155) -/

/-- Python's `\s` on the ASCII range (space, tab, newline, carriage return,
vertical tab, form feed), as used by `re.sub(r'…\s+', …)`, `[^a-z0-9\s]`
and `str.split()`. -/
def pySpace (c : Char) : Bool :=
  c = ' ' ∨ c = '\t' ∨ c = '\n' ∨ c = '\r' ∨ c = '\x0b' ∨ c = '\x0c'

/-- `str.lower()` on the ASCII range (code points 65-90 are `'A'`-`'Z'`,
shifted by 32 to `'a'`-`'z'`); the article words and the character class of
`_normalize_title` are all ASCII. -/
def pyLower (c : Char) : Char :=
  if 65 ≤ c.toNat ∧ c.toNat ≤ 90 then Char.ofNat (c.toNat + 32) else c

/-- The leading articles of `_normalize_title`'s first regex,
`^(the|a|an|le|la|les|un|une|der|die|das|el|los|las)\s+`, in alternation
order. -/
def articles : List (List Char) :=
  ["the", "a", "an", "le", "la", "les", "un", "une",
   "der", "die", "das", "el", "los", "las"].map String.data

/-- `re.sub(r'^(the|a|an|le|la|les|un|une|der|die|das|el|los|las)\s+', '', s)`.
Since no article word contains whitespace and each alternative must be
followed by at least one whitespace character, an alternative matches
exactly when it equals the maximal non-whitespace front token of `s` and
something follows it (the character right after that token, if any, is
whitespace by maximality); the greedy `\s+` then consumes the entire
whitespace run after the article. -/
def stripLeadingArticle (s : List Char) : List Char :=
  let tok := s.takeWhile (fun c => !pySpace c)
  let rest := s.drop tok.length
  if tok ∈ articles ∧ rest ≠ [] then rest.dropWhile (fun c => pySpace c) else s

/-- The character class kept by `re.sub(r'[^a-z0-9\s]', '', s)`:
`'a'`-`'z'` (97-122), `'0'`-`'9'` (48-57) and whitespace. -/
def keepChar (c : Char) : Bool :=
  (97 ≤ c.toNat && c.toNat ≤ 122) || (48 ≤ c.toNat && c.toNat ≤ 57) || pySpace c

/-- Auxiliary for Python `str.split()`: cut the character list at every
whitespace character, keeping the (possibly empty) chunks in between.
The result is always non-empty. -/
def wsChunks : List Char → List (List Char)
  | [] => [[]]
  | c :: cs =>
      match wsChunks cs with
      | [] => []
      | w :: ws => if pySpace c then [] :: w :: ws else (c :: w) :: ws

/-- Python `s.split()` with no separator: the maximal non-empty runs of
non-whitespace characters. -/
def pySplit (s : List Char) : List (List Char) :=
  (wsChunks s).filter (fun w => !w.isEmpty)

/-- Python `' '.join(ws)`. -/
def joinSpace : List (List Char) → List Char
  | [] => []
  | [w] => w
  | w :: ws => w ++ ' ' :: joinSpace ws

/-- `_normalize_title` on the underlying character list: lowercase, strip
one leading article, drop every character outside `[a-z0-9\s]`, then
collapse whitespace via `' '.join(s.split())`. -/
def normalizeChars (s : List Char) : List Char :=
  joinSpace (pySplit ((stripLeadingArticle (s.map pyLower)).filter keepChar))

/-- `_normalize_title` (tmdb_client.py lines 132-155). -/
def _normalize_title (s : String) : String :=
  ⟨normalizeChars s.data⟩

/-! ## Cache and title resolution: `search_movie` (tmdb_client.py lines 117-277) -/

/-- Python truthiness of an optional integer: `None` and `0` are falsy
(`if not movie_id`, `if year`, `if fuzzy_match_id`). -/
def truthyNat : Option Nat → Option Nat
  | some n => if n = 0 then none else some n
  | none => none

/-- Python truthiness of an optional string: `None` and `''` are falsy. -/
def truthyStr : Option String → Option String
  | some s => if s = "" then none else some s
  | none => none

/-- The in-memory cache `self.cache` restricted to `search` entries: a map
from string keys to stored values, where a stored value is either a TMDB id
or Python `None` (the explicit "not found" marker written at line 272).
Insertion order is newest-first; `lookupAssoc` returns the newest binding,
which models `dict` assignment overwriting the key. -/
abbrev SearchCache := List (String × Option Nat)

/-- Raw association lookup: `some v` when the key is bound to `v` (where `v`
itself may be Python `None`), `none` when the key is absent. -/
def lookupAssoc (cache : SearchCache) (k : String) : Option (Option Nat) :=
  match cache with
  | [] => none
  | (k', v) :: rest => if k' = k then some v else lookupAssoc rest k

/-- `_get_from_cache` (lines 121-125), i.e. `self.cache.get(key)`: a `dict`
lookup that collapses "key absent" and "key bound to `None`" into the same
result `None`. -/
def _get_from_cache (cache : SearchCache) (k : String) : Option Nat :=
  match lookupAssoc cache k with
  | some v => v
  | none => none

/-- `_set_in_cache` (lines 127-130): `self.cache[key] = value`. -/
def _set_in_cache (cache : SearchCache) (k : String) (v : Option Nat) : SearchCache :=
  (k, v) :: cache

/-- `_get_cache_key` (lines 117-119):
`f"{prefix}:{'_'.join(str(arg) for arg in args)}"`. -/
def _get_cache_key (pre : String) (args : List String) : String :=
  pre ++ ":" ++ String.intercalate "_" args

/-- The `year or 'no_year'` argument of the search cache key: `str(year)`
when the year is truthy, the sentinel `'no_year'` when it is `None` or `0`. -/
def yearOrSentinel (year : Option Nat) : String :=
  match truthyNat year with
  | some y => toString y
  | none => "no_year"

/-- One entry of the `results` array of `/search/movie`: the fields
`search_movie` reads (`id`, `title`, `release_date`; a missing
`release_date` is collapsed to `''` as `result.get('release_date','')`
does). -/
structure SearchResult where
  id : Nat
  title : String
  release_date : String
deriving DecidableEq

/-- `_fuzzy_match_title` (lines 157-199), parameterized by the `rapidfuzz`
similarity `fuzz.ratio` (a `0`-`100` score on the two normalized titles).
Scans the first 10 results, adds a `+15` bonus when the year is truthy and
the first 4 characters of the candidate's release date equal `str(year)`,
and keeps the first result that strictly improves the best score while
reaching the threshold. -/
def _fuzzy_match_title (ratio : String → String → ℚ) (search_title : String)
    (results : List SearchResult) (year : Option Nat) (threshold : ℚ) : Option Nat :=
  if results.isEmpty then none
  else
    let normalized_search := _normalize_title search_title
    ((results.take 10).foldl
      (fun best r =>
        let base := ratio normalized_search (_normalize_title r.title)
        let result_year := r.release_date.take 4
        let score :=
          match truthyNat year with
          | some y => if result_year ≠ "" ∧ result_year = toString y then base + 15 else base
          | none => base
        if best.2 < score ∧ threshold ≤ score then (some r.id, score) else best)
      ((none : Option Nat), (0 : ℚ))).1

/-- The outcome of one `search_movie` call: the returned id (or `None`), the
cache after the call, and the number of `_make_request` network calls the
call performed. -/
structure SearchOutcome where
  result : Option Nat
  cache : SearchCache
  requests : Nat
deriving DecidableEq

/-- `search_movie` (tmdb_client.py lines 201-277), against a deterministic
transport `net query year? ↦ results` (the JSON `results` array of
`/search/movie` for the given parameters; `params['year']` is attached only
when the year is truthy).  The strategy cascade, in source order:
1. with results and a truthy year, accept the first result when the first 4
   characters of its release date equal `str(year)`;
2. with a truthy year, issue a second request without the year and fuzzy
   match at threshold 85;
3. fuzzy match the original results at threshold 85, else fall back to the
   first result;
4. with a truthy year and no original results, fuzzy match the no-year
   results at the lowered threshold 75;
finally the explicit negative outcome `None` is written to the cache.
The transport is total (the `except TMDBAPIError` path, which returns
`None` *without* caching, is outside this model). -/
def search_movie (ratio : String → String → ℚ)
    (net : String → Option Nat → List SearchResult)
    (cache : SearchCache) (title : String) (year : Option Nat) : SearchOutcome :=
  let cache_key := _get_cache_key "search" [title, yearOrSentinel year]
  match _get_from_cache cache cache_key with
  | some cached_id => ⟨some cached_id, cache, 0⟩
  | none =>
    let yt := truthyNat year
    let results := net title yt
    let strategy1 : Option Nat :=
      match results, yt with
      | r0 :: _, some y =>
          if r0.release_date.take 4 = toString y then some r0.id else none
      | _, _ => none
    match strategy1 with
    | some movie_id => ⟨some movie_id, _set_in_cache cache cache_key (some movie_id), 1⟩
    | none =>
      match yt with
      | some y =>
        let results_no_year := net title none
        match truthyNat (_fuzzy_match_title ratio title results_no_year (some y) 85) with
        | some fid => ⟨some fid, _set_in_cache cache cache_key (some fid), 2⟩
        | none =>
          match results with
          | r0 :: rs =>
            match truthyNat (_fuzzy_match_title ratio title (r0 :: rs) (some y) 85) with
            | some fid => ⟨some fid, _set_in_cache cache cache_key (some fid), 2⟩
            | none => ⟨some r0.id, _set_in_cache cache cache_key (some r0.id), 2⟩
          | [] =>
            match truthyNat (_fuzzy_match_title ratio title results_no_year (some y) 75) with
            | some fid => ⟨some fid, _set_in_cache cache cache_key (some fid), 2⟩
            | none => ⟨none, _set_in_cache cache cache_key none, 2⟩
      | none =>
        match results with
        | r0 :: rs =>
          match truthyNat (_fuzzy_match_title ratio title (r0 :: rs) none 85) with
          | some fid => ⟨some fid, _set_in_cache cache cache_key (some fid), 1⟩
          | none => ⟨some r0.id, _set_in_cache cache cache_key (some r0.id), 1⟩
        | [] => ⟨none, _set_in_cache cache cache_key none, 1⟩

/-! ## Detail extraction: `_extract_movie_info` (tmdb_client.py lines 321-420) -/

/-- One entry of the extracted `cast` list: name, id, raw profile path and
the built image URL. -/
structure CastRecord where
  name : String
  id : Option Nat
  profile_path : Option String
  profile_url : Option String
deriving DecidableEq

/-- The dictionary returned by `_extract_movie_info` (lines 395-420), which
is also what `get_movie_details` caches and returns. -/
structure MovieRecord where
  tmdb_id : Option Nat
  title : Option String
  original_title : Option String
  year : Option Nat
  release_date : String
  overview : String
  genres : List String
  directors : List String
  cast : List CastRecord
  runtime : Option Nat
  rating : Option ℚ
  vote_average : Option ℚ
  vote_count : Option Nat
  popularity : Option ℚ
  keywords : List String
  certification : Option String
  poster_url : Option String
  poster_path : Option String
  backdrop_path : Option String
  tagline : String
  status : Option String
  budget : Option Nat
  revenue : Option Nat
  imdb_id : Option String
deriving DecidableEq

/-- An input item from the scraper boundary: `{title, year?}` (the title
itself may be missing or empty, which `enrich_movie` rejects). -/
structure InputMovie where
  title : Option String
  year : Option Nat
deriving DecidableEq

/-- `enriched = {**movie, **details}` (line 452): the shallow merge of the
input item and its detail record, modelled as the pair of both; on a key
collision the `details` component is authoritative. -/
structure EnrichedMovie where
  source : InputMovie
  details : MovieRecord
deriving DecidableEq

/-- `enrich_movie` (lines 422-454): reject a falsy title, resolve via
`search_movie` (falsy ids — `None`, and `0` by `if not movie_id:` — count
as not found), fetch details, merge. -/
def enrich_movie (resolve : String → Option Nat → Option Nat)
    (fetch : Nat → Option MovieRecord) (movie : InputMovie) : Option EnrichedMovie :=
  match truthyStr movie.title with
  | none => none
  | some title =>
    match truthyNat (resolve title movie.year) with
    | none => none
    | some movie_id =>
      match fetch movie_id with
      | none => none
      | some details => some ⟨movie, details⟩

/-- The batch slices `movies[batch_start:batch_end]` produced by
`range(0, total, batch_size)` (lines 537-539).  `batch_size = 0`, on which
Python's `range` raises, is treated as slices of one. -/
def toBatches (batch_size : Nat) : List α → List (List α)
  | [] => []
  | x :: xs => (x :: xs.take (batch_size - 1)) :: toBatches batch_size (xs.drop (batch_size - 1))
termination_by l => l.length
decreasing_by simp; omega

/-- The sequential fallback loop of `enrich_movies` (lines 487-509): keep
the truthy results in input order. -/
def enrich_movies_sequential (resolve : String → Option Nat → Option Nat)
    (fetch : Nat → Option MovieRecord) : List InputMovie → List EnrichedMovie
  | [] => []
  | movie :: rest =>
    match enrich_movie resolve fetch movie with
    | some enriched => enriched :: enrich_movies_sequential resolve fetch rest
    | none => enrich_movies_sequential resolve fetch rest

/-- `_enrich_movies_parallel` (lines 511-582): submit each batch to the
pool, collect results in completion order (`order`), keep the truthy
ones, absorb per-item exceptions. -/
def _enrich_movies_parallel (resolve : String → Option Nat → Option Nat)
    (fetch : Nat → Option MovieRecord) (order : List InputMovie → List InputMovie)
    (movies : List InputMovie) (batch_size : Nat) : List EnrichedMovie :=
  ((toBatches batch_size movies).map
    (fun batch => (order batch).filterMap (enrich_movie resolve fetch))).flatten

/-- `enrich_movies` (lines 456-509): dispatch to the parallel path when
`parallel` is requested and there is more than one item, else to the
sequential loop. -/
def enrich_movies (resolve : String → Option Nat → Option Nat)
    (fetch : Nat → Option MovieRecord) (order : List InputMovie → List InputMovie)
    (movies : List InputMovie) (parallel : Bool) (batch_size : Nat) : List EnrichedMovie :=
  if parallel ∧ 1 < movies.length then
    _enrich_movies_parallel resolve fetch order movies batch_size
  else
    enrich_movies_sequential resolve fetch movies

/-! ## Candidate pool: `build_candidate_pool` (tmdb_client.py lines 702-815) -/

/-- A watched (already enriched) movie as `build_candidate_pool` reads it:
only `movie.get('tmdb_id')` is consumed. -/
structure WatchedItem where
  tmdb_id : Option Nat
deriving DecidableEq

/-- Line 726: `{movie.get('tmdb_id') for movie in watched_movies if
movie.get('tmdb_id')}` — the truthy watched ids (as a list; only
membership is used). -/
def watched_id_list (watched : List WatchedItem) : List Nat :=
  watched.filterMap (fun m => truthyNat m.tmdb_id)

/-- One parsed entry of `get_similar_movies` / `get_movie_recommendations`
output (lines 599-607): `{tmdb_id, title, year}` with the year already
parsed from the release date. -/
structure CandidateMovie where
  tmdb_id : Nat
  title : String
  year : Option Nat
deriving DecidableEq

/-- `get_similar_movies` (lines 584-611) against a parsed transport oracle:
the endpoint's result list capped at `max_results`; an API error makes the
real function return `[]`, which the oracle can produce directly. -/
def get_similar_movies (similarNet : Nat → List CandidateMovie)
    (movie_id max_results : Nat) : List CandidateMovie :=
  (similarNet movie_id).take max_results

/-- `get_movie_recommendations` (lines 613-640), same shape. -/
def get_movie_recommendations (recsNet : Nat → List CandidateMovie)
    (movie_id max_results : Nat) : List CandidateMovie :=
  (recsNet movie_id).take max_results

/-- The two inner `for` loops at lines 740-750: append each incoming
candidate unless its id is already watched or already accumulated
(`candidate_ids` is kept in lockstep with `candidate_movies`, so it equals
the accumulated ids). -/
def add_candidates (watched_ids : List Nat) (acc : List CandidateMovie)
    (incoming : List CandidateMovie) : List CandidateMovie :=
  incoming.foldl
    (fun acc c =>
      if c.tmdb_id ∈ watched_ids ∨ c.tmdb_id ∈ acc.map CandidateMovie.tmdb_id then acc
      else acc ++ [c])
    acc

/-- The seed loop at lines 730-754: for each watched item with a truthy id,
take up to `candidates_per_movie / 2` similar and as many recommended
neighbours, dropping watched and duplicate ids; after each processed seed,
stop as soon as the accumulated count has reached `max_candidates`.
Returns the accumulated candidates together with the trace of seed ids
that were actually queried. -/
def gather_candidates (similarNet recsNet : Nat → List CandidateMovie)
    (candidates_per_movie max_candidates : Nat) (watched_ids : List Nat) :
    List WatchedItem → List CandidateMovie → List CandidateMovie × List Nat
  | [], acc => (acc, [])
  | m :: rest, acc =>
    match truthyNat m.tmdb_id with
    | none => gather_candidates similarNet recsNet candidates_per_movie max_candidates watched_ids rest acc
    | some movie_id =>
      let acc1 := add_candidates watched_ids acc
        (get_similar_movies similarNet movie_id (candidates_per_movie / 2))
      let acc2 := add_candidates watched_ids acc1
        (get_movie_recommendations recsNet movie_id (candidates_per_movie / 2))
      if max_candidates ≤ acc2.length then (acc2, [movie_id])
      else
        let r := gather_candidates similarNet recsNet candidates_per_movie max_candidates watched_ids rest acc2
        (r.1, movie_id :: r.2)

/-- Line 797: `if min_rating and min_rating > 0:` — the rating filter is
active only when `min_rating` is truthy (not `None`, not `0`) and
positive. -/
def rating_filter_active : Option ℚ → Bool
  | none => false
  | some v => !(v == 0) && decide (0 < v)

/-- Lines 796-804: a fetched record passes when the filter is inactive, or
when its `rating` (`details.get('rating', 0)`, always present in the
extracted record) is truthy and at least `min_rating`. -/
def keep_by_rating (min_rating : Option ℚ) (d : MovieRecord) : Bool :=
  if rating_filter_active min_rating then
    match d.rating, min_rating with
    | some r, some mr => !(r == 0) && decide (mr ≤ r)
    | _, _ => false
  else true

/-- The per-candidate work of the enrichment loop at lines 780-804: fetch
the details of the candidate's id (a falsy result is skipped), then apply
the rating filter. -/
def fetch_candidate (details : Nat → Option MovieRecord) (min_rating : Option ℚ)
    (c : CandidateMovie) : Option MovieRecord :=
  match details c.tmdb_id with
  | none => none
  | some d => if keep_by_rating min_rating d then some d else none

/-- `build_candidate_pool` (tmdb_client.py lines 702-815): gather
deduplicated unwatched neighbours seed by seed, truncate to
`max_candidates`, then fetch details in batches of 10 over the pool
(collected in completion order `order`), applying the rating filter to
each fetched record. -/
def build_candidate_pool (similarNet recsNet : Nat → List CandidateMovie)
    (details : Nat → Option MovieRecord) (order : List CandidateMovie → List CandidateMovie)
    (watched : List WatchedItem) (candidates_per_movie max_candidates : Nat)
    (min_rating : Option ℚ) : List MovieRecord :=
  let watched_ids := watched_id_list watched
  let gathered := (gather_candidates similarNet recsNet candidates_per_movie max_candidates
    watched_ids watched []).1
  let candidate_movies := gathered.take max_candidates
  ((toBatches 10 candidate_movies).map
    (fun batch => (order batch).filterMap (fetch_candidate details min_rating))).flatten

/-! ## Concrete fixtures used by the counterexamples and witnesses -/

/-- A degenerate similarity oracle (every fuzzy score is 0). -/
def ratio0 : String → String → ℚ := fun _ _ => 0

/-- A search transport that finds nothing. -/
def netEmpty : String → Option Nat → List SearchResult := fun _ _ => []

/-- A search transport whose first page always holds the 1999 "The Matrix"
entry. -/
def netMatrix : String → Option Nat → List SearchResult :=
  fun _ _ => [⟨603, "The Matrix", "1999-03-30"⟩]

/-- A minimal extracted detail record with the given id and rating. -/
def testRecord (i : Nat) (r : Option ℚ) : MovieRecord :=
  { tmdb_id := some i, title := some "t", original_title := none, year := none
    release_date := "", overview := "", genres := [], directors := [], cast := []
    runtime := none, rating := r, vote_average := r, vote_count := none
    popularity := none, keywords := [], certification := none, poster_url := none
    poster_path := none, backdrop_path := none, tagline := "", status := none
    budget := none, revenue := none, imdb_id := none }

/-- Fixture resolver: only the title `"A"` resolves (to id 7). -/
def testResolve : String → Option Nat → Option Nat :=
  fun t _ => if t = "A" then some 7 else none

/-- Fixture detail fetcher for the enrichment claims: only id 7 has
details. -/
def testFetch : Nat → Option MovieRecord :=
  fun i => if i = 7 then some (testRecord 7 (some 5)) else none

/-- Fixture similar-movies transport for the pool claims: seed 1 has the
neighbour 2, seed 3 the neighbour 4. -/
def testSimilar : Nat → List CandidateMovie :=
  fun i => if i = 1 then [⟨2, "c2", none⟩] else if i = 3 then [⟨4, "c4", none⟩] else []

/-- Fixture recommendations transport: empty everywhere. -/
def testRecs : Nat → List CandidateMovie := fun _ => []

/-- Fixture detail fetcher for the pool claims: id 2 has a record with an
absent rating, id 4 one rated 7, other ids fail. -/
def testPoolDetails : Nat → Option MovieRecord :=
  fun i =>
    if i = 2 then some (testRecord 2 none)
    else if i = 4 then some (testRecord 4 (some 7)) else none

/-- C1: the claimed retry discipline does not happen.  Because the
`except`-clauses inside `_make_request` convert every
`requests.exceptions.RequestException` into `TMDBAPIError` *inside* the
retried function, `tenacity`'s
`retry_if_exception_type(RequestException)` never observes a retryable
exception: a single timeout (even when the next attempt would succeed)
surfaces `TMDBAPIError` after exactly 1 attempt, three consecutive
timeouts also stop after 1 attempt, and status-derived errors are raised
immediately as the claim says. -/
theorem C1_transport_retry_never_fires :
    _make_request [.timeout, .response 200 "ok"]
      = (.error (.tmdbAPIError "TMDB API request timed out."), 1) ∧
    _make_request [.timeout, .timeout, .timeout]
      = (.error (.tmdbAPIError "TMDB API request timed out."), 1) ∧
    _make_request [.connectionError, .response 200 "ok"]
      = (.error (.tmdbAPIError "Network error while accessing TMDB API"), 1) ∧
    _make_request [.response 404 "", .response 200 "ok"]
      = (.error (.movieNotFoundError "Resource not found"), 1) ∧
    _make_request [.response 429 "", .response 200 "ok"]
      = (.error (.tmdbAPIError "TMDB API rate limit exceeded. Please wait and try again."), 1) :=
  ⟨rfl, rfl, rfl, rfl, rfl⟩

/-! ## C4: normalization lemmas -/

theorem wsChunks_ne_nil (s : List Char) : wsChunks s ≠ [] := by
  induction s with
  | nil => simp [wsChunks]
  | cons c cs ih =>
    cases h : wsChunks cs with
    | nil => exact absurd h ih
    | cons w ws =>
      simp only [wsChunks, h]
      split <;> simp

theorem mem_wsChunks_sound {w : List Char} {s : List Char} (hw : w ∈ wsChunks s) :
    ∀ c ∈ w, c ∈ s ∧ pySpace c = false := by
  induction s generalizing w with
  | nil =>
    simp only [wsChunks, List.mem_singleton] at hw
    subst hw; simp
  | cons a as ih =>
    cases h : wsChunks as with
    | nil => exact absurd h (wsChunks_ne_nil as)
    | cons w0 ws0 =>
      simp only [wsChunks, h] at hw
      cases ha : pySpace a with
      | true =>
        rw [if_pos (by simp [ha])] at hw
        rcases List.mem_cons.1 hw with rfl | hw'
        · intro c hc; simp at hc
        · intro c hc
          have := ih (h ▸ hw') c hc
          exact ⟨List.mem_cons_of_mem _ this.1, this.2⟩
      | false =>
        rw [if_neg (by simp [ha])] at hw
        rcases List.mem_cons.1 hw with rfl | hw'
        · intro c hc
          rcases List.mem_cons.1 hc with rfl | hc'
          · exact ⟨List.mem_cons_self _ _, ha⟩
          · have := ih (h ▸ List.mem_cons_self w0 ws0) c hc'
            exact ⟨List.mem_cons_of_mem _ this.1, this.2⟩
        · have hmem : w ∈ wsChunks as := h ▸ List.mem_cons_of_mem _ hw'
          intro c hc
          have := ih hmem c hc
          exact ⟨List.mem_cons_of_mem _ this.1, this.2⟩

theorem wsChunks_of_nonspace {w : List Char} (hw : ∀ c ∈ w, pySpace c = false) :
    wsChunks w = [w] := by
  induction w with
  | nil => rfl
  | cons c cs ih =>
    have hc : pySpace c = false := hw c (List.mem_cons_self _ _)
    have ih' := ih (fun c hc => hw c (List.mem_cons_of_mem _ hc))
    simp [wsChunks, ih', hc]

theorem wsChunks_append_space (w rest : List Char) (hw : ∀ c ∈ w, pySpace c = false) :
    wsChunks (w ++ ' ' :: rest) = w :: wsChunks rest := by
  induction w with
  | nil =>
    simp only [List.nil_append, wsChunks]
    cases h : wsChunks rest with
    | nil => exact absurd h (wsChunks_ne_nil rest)
    | cons w0 ws0 => simp [show pySpace ' ' = true from rfl, h]
  | cons c cs ih =>
    have hc : pySpace c = false := hw c (List.mem_cons_self _ _)
    have ih' := ih (fun c hc => hw c (List.mem_cons_of_mem _ hc))
    simp [wsChunks, ih', hc]

theorem pySplit_joinSpace (ws : List (List Char))
    (h : ∀ w ∈ ws, w ≠ [] ∧ ∀ c ∈ w, pySpace c = false) :
    pySplit (joinSpace ws) = ws := by
  induction ws with
  | nil => rfl
  | cons w ws ih =>
    obtain ⟨hne, hns⟩ := h w (List.mem_cons_self _ _)
    cases ws with
    | nil =>
      show pySplit w = [w]
      simp [pySplit, wsChunks_of_nonspace hns, hne]
    | cons w2 ws2 =>
      have step : joinSpace (w :: w2 :: ws2) = w ++ ' ' :: joinSpace (w2 :: ws2) := rfl
      rw [step]
      have ih' := ih (fun u hu => h u (List.mem_cons_of_mem _ hu))
      simp only [pySplit, wsChunks_append_space w _ hns, List.filter_cons]
      rw [if_pos (by simpa using hne)]
      simpa [pySplit] using ih'

theorem mem_pySplit {w : List Char} {s : List Char} (hw : w ∈ pySplit s) :
    w ≠ [] ∧ ∀ c ∈ w, c ∈ s ∧ pySpace c = false := by
  simp only [pySplit, List.mem_filter] at hw
  exact ⟨by simpa using hw.2, mem_wsChunks_sound hw.1⟩

theorem mem_joinSpace {c : Char} {ws : List (List Char)} (hc : c ∈ joinSpace ws) :
    c = ' ' ∨ ∃ w ∈ ws, c ∈ w := by
  induction ws with
  | nil => simp [joinSpace] at hc
  | cons w ws ih =>
    cases ws with
    | nil => exact Or.inr ⟨w, List.mem_cons_self _ _, hc⟩
    | cons w2 ws2 =>
      have step : joinSpace (w :: w2 :: ws2) = w ++ ' ' :: joinSpace (w2 :: ws2) := rfl
      rw [step] at hc
      rcases List.mem_append.1 hc with hcw | hcr
      · exact Or.inr ⟨w, List.mem_cons_self _ _, hcw⟩
      · rcases List.mem_cons.1 hcr with rfl | hcr'
        · exact Or.inl rfl
        · rcases ih hcr' with h' | ⟨u, hu, hcu⟩
          · exact Or.inl h'
          · exact Or.inr ⟨u, List.mem_cons_of_mem _ hu, hcu⟩

/-- Every character of a normalized title is in the kept class, and the
only whitespace it can contain is the single space `' '`. -/
theorem normalizeChars_class {c : Char} {s : List Char} (hc : c ∈ normalizeChars s) :
    keepChar c = true := by
  unfold normalizeChars at hc
  rcases mem_joinSpace hc with rfl | ⟨w, hw, hcw⟩
  · rfl
  · have := (mem_pySplit hw).2 c hcw
    exact List.of_mem_filter this.1

theorem pyLower_fixed {c : Char} (h : keepChar c = true) : pyLower c = c := by
  unfold pyLower
  rw [if_neg]
  rintro ⟨h1, h2⟩
  simp only [keepChar, pySpace, Bool.or_eq_true, Bool.and_eq_true, decide_eq_true_eq] at h
  rcases h with (⟨h3, h4⟩ | ⟨h3, h4⟩) | (rfl | rfl | rfl | rfl | rfl | rfl) <;>
    first
      | omega
      | (revert h1 h2; decide)

theorem map_pyLower_fixed {s : List Char} (h : ∀ c ∈ s, keepChar c = true) :
    s.map pyLower = s := by
  induction s with
  | nil => rfl
  | cons c cs ih =>
    simp only [List.map_cons]
    rw [pyLower_fixed (h c (List.mem_cons_self _ _)),
      ih (fun c hc => h c (List.mem_cons_of_mem _ hc))]

/-- Collapsing whitespace is idempotent on a normalized title. -/
theorem collapse_normalizeChars (s : List Char) :
    joinSpace (pySplit (normalizeChars s)) = normalizeChars s := by
  have h : ∀ w ∈ pySplit ((stripLeadingArticle (s.map pyLower)).filter keepChar),
      w ≠ [] ∧ ∀ c ∈ w, pySpace c = false := by
    intro w hw
    exact ⟨(mem_pySplit hw).1, fun c hc => ((mem_pySplit hw).2 c hc).2⟩
  show joinSpace (pySplit (joinSpace _)) = _
  rw [pySplit_joinSpace _ h]
  rfl

/-- C4 (amended): `_normalize_title` is *not* idempotent in general — a
second application can strip a further leading article (see the
counterexample) — but it is idempotent on every input whose normalized
form does not itself begin with an article word followed by whitespace,
i.e. whenever the article-stripping step fixes the normalized title. -/
theorem C4_normalize_idempotent_unless_leading_article (s : String)
    (h : stripLeadingArticle (normalizeChars s.data) = normalizeChars s.data) :
    _normalize_title (_normalize_title s) = _normalize_title s := by
  show (⟨normalizeChars (normalizeChars s.data)⟩ : String) = ⟨normalizeChars s.data⟩
  have hclass : ∀ c ∈ normalizeChars s.data, keepChar c = true :=
    fun c hc => normalizeChars_class hc
  have step : normalizeChars (normalizeChars s.data) = normalizeChars s.data := by
    conv_lhs => rw [normalizeChars]
    rw [map_pyLower_fixed hclass, h, List.filter_eq_self.mpr hclass,
      collapse_normalizeChars]
  rw [step]

/-- C4 (counterexample): the claim `_normalize_title (_normalize_title x) =
_normalize_title x` for *every* string fails at `"The La Bamba"`: the
first application strips `"the"` leaving `"la bamba"`, the second strips
the now-leading article `"la"`. -/
theorem C4_normalize_not_idempotent :
    _normalize_title "The La Bamba" = "la bamba" ∧
    _normalize_title (_normalize_title "The La Bamba") = "bamba" ∧
    _normalize_title (_normalize_title "The La Bamba") ≠ _normalize_title "The La Bamba" :=
  ⟨rfl, rfl, by decide⟩

/-- Witness for `C4_normalize_idempotent_unless_leading_article` at the
concrete title `"Pulp Fiction"`. -/
theorem C4_normalize_idempotent_witness :
    stripLeadingArticle (normalizeChars "Pulp Fiction".data) = normalizeChars "Pulp Fiction".data ∧
    _normalize_title (_normalize_title "Pulp Fiction") = _normalize_title "Pulp Fiction" :=
  ⟨by decide, C4_normalize_idempotent_unless_leading_article "Pulp Fiction" (by decide)⟩

/-! ## C2 / C3: cache behaviour of `search_movie` -/

theorem lookupAssoc_set_same (c : SearchCache) (k : String) (v : Option Nat) :
    lookupAssoc (_set_in_cache c k v) k = some v := by
  simp [lookupAssoc, _set_in_cache]

theorem get_from_cache_eq_some {c : SearchCache} {k : String} {i : Nat}
    (h : _get_from_cache c k = some i) : lookupAssoc c k = some (some i) := by
  unfold _get_from_cache at h
  cases hl : lookupAssoc c k with
  | none => rw [hl] at h; exact absurd h (by simp)
  | some v => rw [hl] at h; simp at h; rw [h]

/-- Every `search_movie` call leaves its own outcome — identity or the
explicit `None` — bound to its raw-title cache key. -/
theorem search_movie_cache_shape (ratio : String → String → ℚ)
    (net : String → Option Nat → List SearchResult) (cache : SearchCache)
    (title : String) (year : Option Nat) :
    lookupAssoc (search_movie ratio net cache title year).cache
        (_get_cache_key "search" [title, yearOrSentinel year])
      = some (search_movie ratio net cache title year).result := by
  simp only [search_movie]
  split
  · next cached_id heq => exact get_from_cache_eq_some heq
  · repeat' split
    all_goals exact lookupAssoc_set_same ..

/-- A later query whose raw cache key coincides with that of an earlier
query that produced an *identity* is answered from the cache with zero
network requests. -/
theorem search_movie_repeat (ratio : String → String → ℚ)
    (net : String → Option Nat → List SearchResult) (cache : SearchCache)
    (title : String) (year : Option Nat) (title2 : String) (year2 : Option Nat)
    (movie_id : Nat)
    (hkey : _get_cache_key "search" [title2, yearOrSentinel year2]
      = _get_cache_key "search" [title, yearOrSentinel year])
    (hres : (search_movie ratio net cache title year).result = some movie_id) :
    search_movie ratio net (search_movie ratio net cache title year).cache title2 year2
      = ⟨some movie_id, (search_movie ratio net cache title year).cache, 0⟩ := by
  have h1 := search_movie_cache_shape ratio net cache title year
  rw [hres] at h1
  have h2 : _get_from_cache (search_movie ratio net cache title year).cache
      (_get_cache_key "search" [title2, yearOrSentinel year2]) = some movie_id := by
    rw [hkey, _get_from_cache, h1]
  conv_lhs => rw [search_movie]
  rw [h2]

/-- C2: a repeated resolution of a `(title, year)` whose first outcome was
the explicit absent ("not found") outcome performs the network requests
*again*.  The first call stores the negative outcome in the cache
(`some none` at the raw key), but `_get_from_cache` — a `dict.get` —
cannot distinguish the stored `None` from a miss, and the guard
`if cached_id is not None:` therefore treats it as a miss: the second
identical call issues 2 further requests instead of the claimed 0.  (For
identity outcomes the claim does hold — see `search_movie_repeat`.) -/
theorem C2_absent_outcome_requeried :
    (search_movie ratio0 netEmpty [] "Nonexistent Movie" (some 1999)).result = none ∧
    (search_movie ratio0 netEmpty [] "Nonexistent Movie" (some 1999)).requests = 2 ∧
    lookupAssoc (search_movie ratio0 netEmpty [] "Nonexistent Movie" (some 1999)).cache
      (_get_cache_key "search" ["Nonexistent Movie", yearOrSentinel (some 1999)]) = some none ∧
    (search_movie ratio0 netEmpty
      (search_movie ratio0 netEmpty [] "Nonexistent Movie" (some 1999)).cache
      "Nonexistent Movie" (some 1999)).requests = 2 := by
  decide

/-- C3 (counterexample): two titles with equal normalizations and equal
years do *not* share one cache entry.  `_get_cache_key` is built from the
raw title (`'search', title, year or 'no_year'` at line 213 — the
normalized title is never used for caching), so after resolving
`"The Matrix" (1999)` the key for `"the matrix" (1999)` is still unbound
and the second query performs a fresh network request. -/
theorem C3_equal_normalizations_no_shared_entry :
    _normalize_title "The Matrix" = _normalize_title "the matrix" ∧
    (search_movie ratio0 netMatrix [] "The Matrix" (some 1999)).result = some 603 ∧
    (search_movie ratio0 netMatrix [] "The Matrix" (some 1999)).requests = 1 ∧
    lookupAssoc (search_movie ratio0 netMatrix [] "The Matrix" (some 1999)).cache
      (_get_cache_key "search" ["the matrix", yearOrSentinel (some 1999)]) = none ∧
    (search_movie ratio0 netMatrix
      (search_movie ratio0 netMatrix [] "The Matrix" (some 1999)).cache
      "the matrix" (some 1999)).requests = 1 := by
  decide

/-- C3 (amended): every resolution outcome — including the explicit absent
outcome — is cached, but under a key derived from the *raw* title together
with the year-or-sentinel (`f"search:{title}_{year or 'no_year'}"`), not
from the normalized title; consequently two queries share a cache entry
exactly when those raw key strings coincide (equal normalizations are not
sufficient), and a shared entry short-circuits the second query — with the
identical identity and zero network requests — when the stored outcome is
an identity. -/
theorem C3_raw_key_caching (ratio : String → String → ℚ)
    (net : String → Option Nat → List SearchResult) (cache : SearchCache)
    (title : String) (year : Option Nat) :
    lookupAssoc (search_movie ratio net cache title year).cache
        (_get_cache_key "search" [title, yearOrSentinel year])
      = some (search_movie ratio net cache title year).result ∧
    (∀ title2 year2 movie_id,
      _get_cache_key "search" [title2, yearOrSentinel year2]
        = _get_cache_key "search" [title, yearOrSentinel year] →
      (search_movie ratio net cache title year).result = some movie_id →
      search_movie ratio net (search_movie ratio net cache title year).cache title2 year2
        = ⟨some movie_id, (search_movie ratio net cache title year).cache, 0⟩) :=
  ⟨search_movie_cache_shape ratio net cache title year,
   fun title2 year2 movie_id hkey hres =>
     search_movie_repeat ratio net cache title year title2 year2 movie_id hkey hres⟩

/-- Witness for `C3_raw_key_caching`: repeating the exact raw query
`"The Matrix" (1999)` is served from the cache with zero requests. -/
theorem C3_raw_key_caching_witness :
    search_movie ratio0 netMatrix
        (search_movie ratio0 netMatrix [] "The Matrix" (some 1999)).cache
        "The Matrix" (some 1999)
      = ⟨some 603, (search_movie ratio0 netMatrix [] "The Matrix" (some 1999)).cache, 0⟩ :=
  (C3_raw_key_caching ratio0 netMatrix [] "The Matrix" (some 1999)).2
    "The Matrix" (some 1999) 603 rfl (by decide)

/-! ## C9: detail extraction tolerates malformed release dates -/

theorem toBatches_flatten {α : Type} (bs : Nat) (l : List α) :
    (toBatches bs l).flatten = l := by
  generalize hn : l.length = n
  induction n using Nat.strong_induction_on generalizing l with
  | _ n ih =>
    cases l with
    | nil => simp [toBatches]
    | cons x xs =>
      rw [toBatches]
      simp only [List.flatten_cons]
      rw [ih ((xs.drop (bs - 1)).length) (by subst hn; simp; omega) _ rfl]
      exact congrArg (x :: ·) (List.take_append_drop _ _)

/-- Collecting each batch in an arbitrary completion order and keeping the
truthy per-item results is, up to permutation, a `filterMap` over the
submitted items. -/
theorem batched_filterMap_perm {α β : Type} (g : α → Option β)
    (order : List α → List α) (horder : ∀ l, (order l).Perm l) (bs : Nat) (l : List α) :
    (((toBatches bs l).map (fun b => (order b).filterMap g)).flatten).Perm (l.filterMap g) := by
  conv_rhs => rw [← toBatches_flatten bs l]
  generalize toBatches bs l = batches
  induction batches with
  | nil => simp
  | cons b rest ih =>
    simp only [List.map_cons, List.flatten_cons, List.filterMap_append]
    exact ((horder b).filterMap g).append ih

/-! ## C5: batch enrichment returns exactly the resolvable subset -/

/-- C5: for every input list, `enrich_movies` (sequential or parallel, any
batch size, any per-batch completion order) returns, up to order, exactly
`movies.filterMap (enrich_movie …)` — the enriched records of the items
whose resolution and detail fetch both succeed; membership in the output
is equivalent to being such a record.  One item's failure is absorbed as
its own `none` in the `filterMap` and never disturbs the other items or
the batch. -/
theorem C5_enrich_movies_resolvable_subset (resolve : String → Option Nat → Option Nat)
    (fetch : Nat → Option MovieRecord) (order : List InputMovie → List InputMovie)
    (movies : List InputMovie) (parallel : Bool) (batch_size : Nat)
    (horder : ∀ l, (order l).Perm l) :
    (enrich_movies resolve fetch order movies parallel batch_size).Perm
      (movies.filterMap (enrich_movie resolve fetch)) ∧
    (∀ e, e ∈ enrich_movies resolve fetch order movies parallel batch_size ↔
      ∃ m ∈ movies, enrich_movie resolve fetch m = some e) := by
  have hseq : ∀ ms, enrich_movies_sequential resolve fetch ms
      = ms.filterMap (enrich_movie resolve fetch) := by
    intro ms
    induction ms with
    | nil => rfl
    | cons m rest ih =>
      simp only [enrich_movies_sequential, List.filterMap_cons]
      cases enrich_movie resolve fetch m <;> simp [ih]
  have hperm : (enrich_movies resolve fetch order movies parallel batch_size).Perm
      (movies.filterMap (enrich_movie resolve fetch)) := by
    unfold enrich_movies
    split
    · exact batched_filterMap_perm _ order horder batch_size movies
    · rw [hseq]
  exact ⟨hperm, fun e => by rw [hperm.mem_iff, List.mem_filterMap]⟩

/-- Witness for `C5_enrich_movies_resolvable_subset`: of the two items
`"A"` (resolvable) and `"B"` (resolution absent), exactly the enriched
`"A"` record is returned. -/
theorem C5_enrich_movies_witness :
    (enrich_movies testResolve testFetch id
        [⟨some "A", none⟩, ⟨some "B", none⟩] true 10).Perm
      [⟨⟨some "A", none⟩, testRecord 7 (some 5)⟩] :=
  (C5_enrich_movies_resolvable_subset testResolve testFetch id
    [⟨some "A", none⟩, ⟨some "B", none⟩] true 10 (fun l => List.Perm.refl l)).1

/-! ## Candidate-pool lemmas (C6, C7, C8, C10) -/

/-- Invariant preserved by the candidate accumulator: accumulated ids are
pairwise distinct and none is watched. -/
def PoolInv (watched_ids : List Nat) (acc : List CandidateMovie) : Prop :=
  (acc.map CandidateMovie.tmdb_id).Nodup ∧
  ∀ i ∈ acc.map CandidateMovie.tmdb_id, i ∉ watched_ids

theorem add_candidates_inv (watched_ids : List Nat) (acc incoming : List CandidateMovie)
    (h : PoolInv watched_ids acc) :
    PoolInv watched_ids (add_candidates watched_ids acc incoming) := by
  induction incoming generalizing acc with
  | nil => exact h
  | cons c rest ih =>
    have hstep : add_candidates watched_ids acc (c :: rest)
        = add_candidates watched_ids
            (if c.tmdb_id ∈ watched_ids ∨ c.tmdb_id ∈ acc.map CandidateMovie.tmdb_id then acc
             else acc ++ [c]) rest := rfl
    rw [hstep]
    apply ih
    by_cases hc : c.tmdb_id ∈ watched_ids ∨ c.tmdb_id ∈ acc.map CandidateMovie.tmdb_id
    · rw [if_pos hc]; exact h
    · rw [if_neg hc]
      push_neg at hc
      constructor
      · rw [List.map_append, List.nodup_append]
        exact ⟨h.1, List.nodup_singleton _, by
          intro x hx hx'
          simp at hx'
          exact hc.2 (hx' ▸ hx)⟩
      · intro i hi
        rw [List.map_append, List.mem_append] at hi
        rcases hi with hi | hi
        · exact h.2 i hi
        · simp at hi
          exact hi ▸ hc.1

theorem gather_candidates_inv (similarNet recsNet : Nat → List CandidateMovie)
    (per maxc : Nat) (watched_ids : List Nat) (seeds : List WatchedItem)
    (acc : List CandidateMovie) (h : PoolInv watched_ids acc) :
    PoolInv watched_ids (gather_candidates similarNet recsNet per maxc watched_ids seeds acc).1 := by
  induction seeds generalizing acc with
  | nil => exact h
  | cons m rest ih =>
    simp only [gather_candidates]
    cases truthyNat m.tmdb_id with
    | none => exact ih acc h
    | some movie_id =>
      simp only
      have h2 := add_candidates_inv watched_ids _
        (get_movie_recommendations recsNet movie_id (per / 2))
        (add_candidates_inv watched_ids acc
          (get_similar_movies similarNet movie_id (per / 2)) h)
      split
      · exact h2
      · exact ih _ h2

theorem fetch_candidate_id {details : Nat → Option MovieRecord} {min_rating : Option ℚ}
    {c : CandidateMovie} {d : MovieRecord}
    (hid : ∀ i d, details i = some d → d.tmdb_id = some i)
    (h : fetch_candidate details min_rating c = some d) :
    d.tmdb_id = some c.tmdb_id := by
  unfold fetch_candidate at h
  cases hd : details c.tmdb_id with
  | none => simp [hd] at h
  | some d0 =>
    simp only [hd] at h
    have : d = d0 := by
      by_cases hk : keep_by_rating min_rating d0 = true
      · rw [if_pos hk] at h; exact (Option.some_inj.1 h).symm
      · rw [if_neg hk] at h; exact absurd h (by simp)
    exact this ▸ hid c.tmdb_id d0 hd

theorem filterMap_fetch_ids (details : Nat → Option MovieRecord) (min_rating : Option ℚ)
    (hid : ∀ i d, details i = some d → d.tmdb_id = some i) (l : List CandidateMovie)
    (hl : (l.map CandidateMovie.tmdb_id).Nodup) :
    ((l.filterMap (fetch_candidate details min_rating)).map MovieRecord.tmdb_id).Nodup ∧
    ∀ x ∈ (l.filterMap (fetch_candidate details min_rating)).map MovieRecord.tmdb_id,
      ∃ c ∈ l, x = some c.tmdb_id := by
  induction l with
  | nil => simp
  | cons c l ih =>
    rw [List.map_cons, List.nodup_cons] at hl
    obtain ⟨ihn, ihm⟩ := ih hl.2
    cases hfc : fetch_candidate details min_rating c with
    | none =>
      rw [List.filterMap_cons, hfc]
      exact ⟨ihn, fun x hx => by
        obtain ⟨c', hc', hx'⟩ := ihm x hx
        exact ⟨c', List.mem_cons_of_mem _ hc', hx'⟩⟩
    | some d =>
      have hd : d.tmdb_id = some c.tmdb_id := fetch_candidate_id hid hfc
      rw [List.filterMap_cons, hfc]
      constructor
      · rw [List.map_cons, List.nodup_cons]
        refine ⟨fun hmem => ?_, ihn⟩
        obtain ⟨c', hc', hx'⟩ := ihm _ hmem
        rw [hd] at hx'
        exact hl.1 (Option.some_inj.1 hx' ▸ List.mem_map_of_mem CandidateMovie.tmdb_id hc')
      · intro x hx
        rw [List.map_cons, List.mem_cons] at hx
        rcases hx with rfl | hx
        · exact ⟨c, List.mem_cons_self _ _, hd⟩
        · obtain ⟨c', hc', hx'⟩ := ihm x hx
          exact ⟨c', List.mem_cons_of_mem _ hc', hx'⟩

/-- The detail phase of `build_candidate_pool` is, up to permutation, a
`filterMap` over the truncated candidate list. -/
theorem build_candidate_pool_perm (similarNet recsNet : Nat → List CandidateMovie)
    (details : Nat → Option MovieRecord) (order : List CandidateMovie → List CandidateMovie)
    (watched : List WatchedItem) (per maxc : Nat) (min_rating : Option ℚ)
    (horder : ∀ l, (order l).Perm l) :
    (build_candidate_pool similarNet recsNet details order watched per maxc min_rating).Perm
      (((gather_candidates similarNet recsNet per maxc (watched_id_list watched)
          watched []).1.take maxc).filterMap (fetch_candidate details min_rating)) := by
  unfold build_candidate_pool
  exact batched_filterMap_perm _ order horder 10 _

/-- Processing of seeds stops at the crossing point: once the accumulated
candidate count has reached `max_candidates` after some processed prefix,
any further seeds are never queried (same candidates, same trace of
queried seed ids). -/
theorem gather_early_stop (similarNet recsNet : Nat → List CandidateMovie)
    (per maxc : Nat) (watched_ids : List Nat) :
    ∀ (pre suf : List WatchedItem) (acc : List CandidateMovie),
      acc.length < maxc →
      maxc ≤ (gather_candidates similarNet recsNet per maxc watched_ids pre acc).1.length →
      gather_candidates similarNet recsNet per maxc watched_ids (pre ++ suf) acc
        = gather_candidates similarNet recsNet per maxc watched_ids pre acc := by
  intro pre
  induction pre with
  | nil =>
    intro suf acc hlt hge
    exact absurd hge (by simp [gather_candidates]; omega)
  | cons m pre ih =>
    intro suf acc hlt hge
    simp only [gather_candidates] at hge ⊢
    cases ht : truthyNat m.tmdb_id with
    | none =>
      rw [ht] at hge
      exact ih suf acc hlt hge
    | some movie_id =>
      rw [ht] at hge
      simp only at hge ⊢
      set acc2 := add_candidates watched_ids
        (add_candidates watched_ids acc (get_similar_movies similarNet movie_id (per / 2)))
        (get_movie_recommendations recsNet movie_id (per / 2)) with hacc2
      by_cases hb : maxc ≤ acc2.length
      · rw [if_pos hb] at hge ⊢
        rw [if_pos hb]
      · rw [if_neg hb] at hge ⊢
        rw [if_neg hb]
        have hge' : maxc ≤ (gather_candidates similarNet recsNet per maxc watched_ids
            pre acc2).1.length := hge
        have hrec := ih suf acc2 (by omega) hge'
        simp only [List.append_eq]
        rw [hrec]

theorem fetch_candidate_split (details : Nat → Option MovieRecord) (min_rating : Option ℚ)
    (c : CandidateMovie) :
    fetch_candidate details min_rating c
      = (fetch_candidate details none c).bind
          (fun d => if keep_by_rating min_rating d then some d else none) := by
  unfold fetch_candidate
  cases details c.tmdb_id with
  | none => rfl
  | some d => rfl

theorem filterMap_bind_filter {α β : Type} (g : α → Option β) (p : β → Bool) (l : List α) :
    l.filterMap (fun a => (g a).bind (fun b => if p b then some b else none))
      = (l.filterMap g).filter p := by
  induction l with
  | nil => rfl
  | cons a l ih =>
    rw [List.filterMap_cons, List.filterMap_cons]
    cases g a with
    | none => simpa using ih
    | some b =>
      by_cases hp : p b = true
      · simp [hp, ih, List.filter_cons]
      · simp [hp, ih, List.filter_cons]

theorem filterMap_fetch_split (details : Nat → Option MovieRecord) (min_rating : Option ℚ)
    (l : List CandidateMovie) :
    l.filterMap (fetch_candidate details min_rating)
      = (l.filterMap (fetch_candidate details none)).filter (keep_by_rating min_rating) := by
  rw [← filterMap_bind_filter]
  congr 1
  funext c
  exact fetch_candidate_split details min_rating c

/-- The rating filter commutes out of the pool construction: the filtered
pool is exactly the unfiltered pool filtered afterwards — it is applied
after enrichment and after the truncation, never changing which seeds or
candidates are gathered. -/
theorem build_pool_filter_after (similarNet recsNet : Nat → List CandidateMovie)
    (details : Nat → Option MovieRecord) (order : List CandidateMovie → List CandidateMovie)
    (watched : List WatchedItem) (per maxc : Nat) (min_rating : Option ℚ) :
    build_candidate_pool similarNet recsNet details order watched per maxc min_rating
      = (build_candidate_pool similarNet recsNet details order watched per maxc none).filter
          (keep_by_rating min_rating) := by
  simp only [build_candidate_pool]
  generalize (gather_candidates similarNet recsNet per maxc (watched_id_list watched)
    watched []).1.take maxc = trunc
  induction toBatches 10 trunc with
  | nil => rfl
  | cons b rest ih =>
    simp only [List.map_cons, List.flatten_cons, List.filter_append]
    rw [ih, filterMap_fetch_split]

/-! ## C7: the pool is disjoint from the watched ids and duplicate-free -/

/-- C7: for every watched list (and any transports whose details payload
carries the id it was asked for), the candidate pool's records have
pairwise distinct `tmdb_id`s and none of them belongs to the watched-id
set `{movie['tmdb_id'] | movie ∈ watched, truthy}`. -/
theorem C7_pool_disjoint_and_unique (similarNet recsNet : Nat → List CandidateMovie)
    (details : Nat → Option MovieRecord) (order : List CandidateMovie → List CandidateMovie)
    (watched : List WatchedItem) (per maxc : Nat) (min_rating : Option ℚ)
    (horder : ∀ l, (order l).Perm l)
    (hid : ∀ i d, details i = some d → d.tmdb_id = some i) :
    ((build_candidate_pool similarNet recsNet details order watched per maxc min_rating).map
      MovieRecord.tmdb_id).Nodup ∧
    ∀ d ∈ build_candidate_pool similarNet recsNet details order watched per maxc min_rating,
      ∀ i, d.tmdb_id = some i → i ∉ watched_id_list watched := by
  have hinv : PoolInv (watched_id_list watched)
      (gather_candidates similarNet recsNet per maxc (watched_id_list watched) watched []).1 :=
    gather_candidates_inv _ _ _ _ _ _ [] ⟨List.nodup_nil, by simp⟩
  have htsub : (((gather_candidates similarNet recsNet per maxc (watched_id_list watched)
        watched []).1.take maxc).map CandidateMovie.tmdb_id).Sublist
      ((gather_candidates similarNet recsNet per maxc (watched_id_list watched)
        watched []).1.map CandidateMovie.tmdb_id) :=
    (List.take_sublist _ _).map _
  have htn := List.Nodup.sublist htsub hinv.1
  have hperm := build_candidate_pool_perm similarNet recsNet details order watched per maxc
    min_rating horder
  have hfm := filterMap_fetch_ids details min_rating hid _ htn
  constructor
  · exact ((hperm.map MovieRecord.tmdb_id).nodup_iff).2 hfm.1
  · intro d hd i hdi
    obtain ⟨c, hc, hfc⟩ := List.mem_filterMap.1 (hperm.mem_iff.mp hd)
    have hcd := fetch_candidate_id hid hfc
    have hi : i = c.tmdb_id := by
      rw [hdi] at hcd
      exact Option.some_inj.1 hcd
    subst hi
    exact hinv.2 _ (List.Sublist.mem (List.mem_map_of_mem _ hc) htsub)

theorem testPoolDetails_id : ∀ i d, testPoolDetails i = some d → d.tmdb_id = some i := by
  intro i d h
  unfold testPoolDetails at h
  split at h
  · next hi => subst hi; injection h with h2; rw [← h2]; rfl
  · split at h
    · next hi => subst hi; injection h with h2; rw [← h2]; rfl
    · exact absurd h (by simp)

/-- Witness for `C7_pool_disjoint_and_unique` at a concrete one-seed run. -/
theorem C7_pool_witness :
    ((build_candidate_pool testSimilar testRecs testPoolDetails id [⟨some 1⟩] 2 5 none).map
      MovieRecord.tmdb_id).Nodup ∧
    ∀ d ∈ build_candidate_pool testSimilar testRecs testPoolDetails id [⟨some 1⟩] 2 5 none,
      ∀ i, d.tmdb_id = some i → i ∉ watched_id_list [⟨some 1⟩] :=
  C7_pool_disjoint_and_unique testSimilar testRecs testPoolDetails id [⟨some 1⟩] 2 5 none
    (fun l => List.Perm.refl l) testPoolDetails_id

/-! ## C8: the pool is bounded by `max_candidates` and seeds stop early -/

/-- C8: the returned pool never exceeds `max_candidates`, and once the
accumulated unique candidate count has reached `max_candidates` after
processing a prefix of the seeds, processing any further seeds changes
nothing — neither the accumulated candidates (which are then truncated to
`max_candidates` before any detail is fetched) nor the trace of queried
seed ids. -/
theorem C8_pool_bounded_and_early_stop (similarNet recsNet : Nat → List CandidateMovie)
    (details : Nat → Option MovieRecord) (order : List CandidateMovie → List CandidateMovie)
    (watched : List WatchedItem) (per maxc : Nat) (min_rating : Option ℚ)
    (horder : ∀ l, (order l).Perm l) :
    (build_candidate_pool similarNet recsNet details order watched per maxc min_rating).length
      ≤ maxc ∧
    (∀ (watched_ids : List Nat) (pre suf : List WatchedItem) (acc : List CandidateMovie),
      acc.length < maxc →
      maxc ≤ (gather_candidates similarNet recsNet per maxc watched_ids pre acc).1.length →
      gather_candidates similarNet recsNet per maxc watched_ids (pre ++ suf) acc
        = gather_candidates similarNet recsNet per maxc watched_ids pre acc) := by
  constructor
  · have hperm := build_candidate_pool_perm similarNet recsNet details order watched per maxc
      min_rating horder
    calc (build_candidate_pool similarNet recsNet details order watched per maxc
          min_rating).length
        = _ := hperm.length_eq
      _ ≤ ((gather_candidates similarNet recsNet per maxc (watched_id_list watched)
            watched []).1.take maxc).length := List.length_filterMap_le _ _
      _ ≤ maxc := List.length_take_le _ _
  · exact fun w pre suf acc h1 h2 => gather_early_stop similarNet recsNet per maxc w pre suf acc h1 h2

/-- Witness for `C8_pool_bounded_and_early_stop`: with `max_candidates = 1`
the first seed already saturates the pool and the second seed (id 3, which
would contribute candidate 4) is never queried. -/
theorem C8_pool_witness :
    (build_candidate_pool testSimilar testRecs testPoolDetails id
      [⟨some 1⟩, ⟨some 3⟩] 2 1 none).length ≤ 1 ∧
    gather_candidates testSimilar testRecs 2 1 [1, 3] ([⟨some 1⟩] ++ [⟨some 3⟩]) []
      = gather_candidates testSimilar testRecs 2 1 [1, 3] [⟨some 1⟩] [] :=
  ⟨(C8_pool_bounded_and_early_stop testSimilar testRecs testPoolDetails id
      [⟨some 1⟩, ⟨some 3⟩] 2 1 none (fun l => List.Perm.refl l)).1,
   (C8_pool_bounded_and_early_stop testSimilar testRecs testPoolDetails id
      [⟨some 1⟩, ⟨some 3⟩] 2 1 none (fun l => List.Perm.refl l)).2
     [1, 3] [⟨some 1⟩] [⟨some 3⟩] [] (by decide) (by decide)⟩

/-! ## C6: the rating filter -/

/-- C6 (counterexample): "if `minRating` is set, every returned record has
`voteAverage ≥ minRating`" fails when `minRating` is *set to 0*: the guard
`if min_rating and min_rating > 0:` skips the filter for a falsy
`min_rating`, and a candidate whose fetched record has an absent (`None`)
`voteAverage` is returned, which does not satisfy `voteAverage ≥ 0`. -/
theorem C6_min_rating_zero_filter_skipped :
    build_candidate_pool testSimilar testRecs testPoolDetails id [⟨some 1⟩] 2 5 (some 0)
      = [testRecord 2 none] ∧
    (testRecord 2 none).rating = none ∧
    ¬ ∀ d ∈ build_candidate_pool testSimilar testRecs testPoolDetails id [⟨some 1⟩] 2 5 (some 0),
        ∃ r, d.rating = some r ∧ (0:ℚ) ≤ r := by
  have hpool : build_candidate_pool testSimilar testRecs testPoolDetails id
      [⟨some 1⟩] 2 5 (some 0) = [testRecord 2 none] := by
    simp only [build_candidate_pool]
    rw [show (gather_candidates testSimilar testRecs 2 5
      (watched_id_list [⟨some 1⟩]) [⟨some 1⟩] []).1.take 5
        = [(⟨2, "c2", none⟩ : CandidateMovie)] from by decide]
    rw [show toBatches 10 [(⟨2, "c2", none⟩ : CandidateMovie)]
        = [[(⟨2, "c2", none⟩ : CandidateMovie)]] from by simp [toBatches]]
    decide
  refine ⟨hpool, rfl, ?_⟩
  rw [hpool]
  decide

/-- C6 (amended): if `minRating` is set *to a positive value*, every
returned record has a present `voteAverage ≥ minRating`; and (for any
`minRating`) the filter is applied after enrichment and after the
truncation to `maxTotal` — the pool equals the unfiltered pool filtered by
rating, so it may hold fewer than `maxTotal` records and is never
backfilled from further seeds.  When `minRating` is set to `0` the filter
is skipped altogether (see the counterexample and C10). -/
theorem C6_positive_min_rating_filters (similarNet recsNet : Nat → List CandidateMovie)
    (details : Nat → Option MovieRecord) (order : List CandidateMovie → List CandidateMovie)
    (watched : List WatchedItem) (per maxc : Nat) (min_rating : Option ℚ) (v : ℚ)
    (hmr : min_rating = some v) (hv : 0 < v) :
    (∀ d ∈ build_candidate_pool similarNet recsNet details order watched per maxc min_rating,
      ∃ r, d.rating = some r ∧ v ≤ r) ∧
    build_candidate_pool similarNet recsNet details order watched per maxc min_rating
      = (build_candidate_pool similarNet recsNet details order watched per maxc none).filter
          (keep_by_rating min_rating) := by
  refine ⟨?_, build_pool_filter_after similarNet recsNet details order watched per maxc min_rating⟩
  intro d hd
  rw [build_pool_filter_after] at hd
  have hk := List.of_mem_filter hd
  subst hmr
  have hact : rating_filter_active (some v) = true := by
    simp [rating_filter_active, hv, hv.ne']
  unfold keep_by_rating at hk
  rw [hact] at hk
  rw [if_pos rfl] at hk
  cases hr : d.rating with
  | none => rw [hr] at hk; exact absurd hk (by simp)
  | some r =>
    rw [hr] at hk
    simp only [Bool.and_eq_true, Bool.not_eq_true', beq_eq_false_iff_ne,
      decide_eq_true_eq] at hk
    exact ⟨r, rfl, hk.2⟩

/-- Witness for `C6_positive_min_rating_filters` with `minRating = 1`. -/
theorem C6_positive_min_rating_witness :
    (∀ d ∈ build_candidate_pool testSimilar testRecs testPoolDetails id [⟨some 3⟩] 2 5 (some 1),
      ∃ r, d.rating = some r ∧ (1:ℚ) ≤ r) ∧
    build_candidate_pool testSimilar testRecs testPoolDetails id [⟨some 3⟩] 2 5 (some 1)
      = (build_candidate_pool testSimilar testRecs testPoolDetails id [⟨some 3⟩] 2 5 none).filter
          (keep_by_rating (some 1)) :=
  C6_positive_min_rating_filters testSimilar testRecs testPoolDetails id [⟨some 3⟩] 2 5
    (some 1) 1 rfl (by norm_num)

/-! ## C10: truthiness corner of the rating filter -/

/-- C10: when `min_rating > 0`, every returned record's rating is present
and non-zero (the truthiness check `if movie_rating and …` drops absent and
zero ratings no matter how small `min_rating` is); when `min_rating` is `0`
the filter is not applied at all — the pool equals the unfiltered pool —
and with no filter every successfully fetched truncated candidate is
returned, regardless of its rating. -/
theorem C10_zero_rating_truthiness (similarNet recsNet : Nat → List CandidateMovie)
    (details : Nat → Option MovieRecord) (order : List CandidateMovie → List CandidateMovie)
    (watched : List WatchedItem) (per maxc : Nat)
    (horder : ∀ l, (order l).Perm l) :
    (∀ v : ℚ, 0 < v →
      ∀ d ∈ build_candidate_pool similarNet recsNet details order watched per maxc (some v),
        ∃ r, d.rating = some r ∧ r ≠ 0) ∧
    build_candidate_pool similarNet recsNet details order watched per maxc (some 0)
      = build_candidate_pool similarNet recsNet details order watched per maxc none ∧
    (∀ c d, c ∈ (gather_candidates similarNet recsNet per maxc (watched_id_list watched)
        watched []).1.take maxc →
      details c.tmdb_id = some d →
      d ∈ build_candidate_pool similarNet recsNet details order watched per maxc none) := by
  refine ⟨?_, ?_, ?_⟩
  · intro v hv d hd
    rw [build_pool_filter_after] at hd
    have hk := List.of_mem_filter hd
    have hact : rating_filter_active (some v) = true := by
      simp [rating_filter_active, hv, hv.ne']
    unfold keep_by_rating at hk
    rw [hact] at hk
    rw [if_pos rfl] at hk
    cases hr : d.rating with
    | none => rw [hr] at hk; exact absurd hk (by simp)
    | some r =>
      rw [hr] at hk
      simp only [Bool.and_eq_true, Bool.not_eq_true', beq_eq_false_iff_ne,
        decide_eq_true_eq] at hk
      exact ⟨r, rfl, hk.1⟩
  · rw [build_pool_filter_after]
    have hkeep : ∀ d, keep_by_rating (some 0) d = true := by
      intro d
      unfold keep_by_rating
      rw [show rating_filter_active (some 0) = false from by decide]
      simp
    exact List.filter_eq_self.mpr (fun d _ => hkeep d)
  · intro c d hc hd
    have hperm := build_candidate_pool_perm similarNet recsNet details order watched per maxc
      none horder
    refine hperm.mem_iff.mpr (List.mem_filterMap.2 ⟨c, hc, ?_⟩)
    simp [fetch_candidate, hd, keep_by_rating, rating_filter_active]

/-- Witness for `C10_zero_rating_truthiness`: with `min_rating = 0` the
pool equals the unfiltered pool, which contains the record with an absent
rating. -/
theorem C10_zero_rating_witness :
    build_candidate_pool testSimilar testRecs testPoolDetails id [⟨some 1⟩] 2 5 (some 0)
      = build_candidate_pool testSimilar testRecs testPoolDetails id [⟨some 1⟩] 2 5 none ∧
    testRecord 2 none ∈ build_candidate_pool testSimilar testRecs testPoolDetails id
      [⟨some 1⟩] 2 5 none := by
  have h := C10_zero_rating_truthiness testSimilar testRecs testPoolDetails id [⟨some 1⟩] 2 5
    (fun l => List.Perm.refl l)
  exact ⟨h.2.1, h.2.2 ⟨2, "c2", none⟩ (testRecord 2 none) (by decide) (by decide)⟩

end TMDBClient
